import Mathlib

/-!
# Verification of the telegram bot's conversation management and worker logic

Shallow embedding of the relevant parts of `conversation_manager.py` and
`fast_main.py` of the Hostdiggerio/telegram- repository, together with
theorems settling the specification claims about them.

Modelling conventions:
* Python strings are Lean `String`s; only ASCII behaviour is relied upon
  (all concrete inputs are ASCII).
* `time.time()` is modelled as a strictly increasing `Nat` tick counter
  threaded through the state; each call to `time.time()` consumes one tick.
* Python `set`s of strings are `Finset String`.  Python does not specify the
  iteration order of a set, so wherever the code observes that order
  (`list(keywords)[:10]` in `extract_topic_keywords`) the order is a
  parameter `σ : List String → List String` that is assumed to enumerate
  the set's elements, i.e. to permute the list of distinct elements
  (`IsSetOrder`).
* Machine floats appear in one place (`detect_topic_change`); see the
  doc-string there for the exact integer characterization used.
-/

/-! ## Basic character and list helpers -/

/-- ASCII lower-casing of one character, as `str.lower()` acts on ASCII. -/
def pyToLower (c : Char) : Char :=
  if 'A' ≤ c ∧ c ≤ 'Z' then Char.ofNat (c.toNat + 32) else c

/-- Embeds `str.lower()` restricted to ASCII text. -/
def pyLower (s : String) : String :=
  String.mk (s.toList.map pyToLower)

/-- ASCII letter test (`[a-zA-Z]`). -/
def isAsciiLetter (c : Char) : Bool :=
  ('a' ≤ c && c ≤ 'z') || ('A' ≤ c && c ≤ 'Z')

/-- Regex word character (`\w` = `[a-zA-Z0-9_]`), which determines `\b`. -/
def isWordChar (c : Char) : Bool :=
  isAsciiLetter c || ('0' ≤ c && c ≤ '9') || c = '_'

/-- Whitespace recognised by Python's `str.split()` / `str.strip()`
(ASCII fragment: space, tab, newline, carriage return, vertical tab,
form feed). -/
def pyIsSpace (c : Char) : Bool :=
  c = ' ' || c = '\t' || c = '\n' || c = '\r' || c = Char.ofNat 11 || c = Char.ofNat 12

/-- Embeds `listHasPrefixFn n l` decides whether `n` is a prefix of `l`. -/
def listHasPrefixFn [DecidableEq α] : List α → List α → Bool
  | [], _ => true
  | _ :: _, [] => false
  | a :: as, b :: bs => decide (a = b) && listHasPrefixFn as bs

/-- Embeds `containsSub n l` decides whether `n` occurs as a contiguous substring
of `l` (Python's `needle in haystack` on strings). -/
def containsSub [DecidableEq α] (needle : List α) : List α → Bool
  | [] => listHasPrefixFn needle []
  | b :: bs => listHasPrefixFn needle (b :: bs) || containsSub needle bs

/-- Maximal runs of characters satisfying `p`; `cur` is the (reversed)
run currently being built.  Used for `str.split()` and for `\b`-delimited
token extraction. -/
def runsAux (p : Char → Bool) : List Char → List Char → List (List Char)
  | [], cur => if cur = [] then [] else [cur.reverse]
  | c :: rest, cur =>
    if p c then runsAux p rest (c :: cur)
    else if cur = [] then runsAux p rest []
    else cur.reverse :: runsAux p rest []

/-- Keep the first occurrence of each element, dropping later duplicates
(the order in which Python first encounters the distinct elements). -/
def dedupFirstAux [DecidableEq α] : List α → List α → List α
  | [], _ => []
  | a :: t, seen => if a ∈ seen then dedupFirstAux t seen else a :: dedupFirstAux t (a :: seen)

/-- Join chunks with single spaces (`" ".join(...)`). -/
def joinSpaces : List (List Char) → List Char
  | [] => []
  | [t] => t
  | t :: u :: rest => t ++ ' ' :: joinSpaces (u :: rest)

/-! ## conversation_manager.py -/

/-- Embeds `MAX_HISTORY_LENGTH = 12`. -/
def MAX_HISTORY_LENGTH : Nat := 12

/-- Embeds `AUTO_RESET_KEYWORDS` from conversation_manager.py. -/
def AUTO_RESET_KEYWORDS : List String :=
  ["new topic", "change subject", "something else", "different question",
   "by the way", "btw", "moving on", "next question", "different topic"]

/-- The stopword set of `extract_topic_keywords` (the Python literal lists
`'her'` twice; a set keeps one copy). -/
def stop_words : List String :=
  ["the", "a", "an", "and", "or", "but", "in", "on", "at", "to", "for", "of",
   "with", "by", "from", "up", "about", "into", "through", "during", "before",
   "after", "above", "below", "between", "among", "is", "are", "was", "were",
   "be", "been", "being", "have", "has", "had", "do", "does", "did", "will",
   "would", "could", "should", "may", "might", "must", "can", "this", "that",
   "these", "those", "i", "you", "he", "she", "it", "we", "they", "me", "him",
   "her", "us", "them", "my", "your", "his", "its", "our", "their"]

/-- The matches of `re.findall(r'\b[a-zA-Z]{3,}\b', text)`: maximal ASCII
letter runs of length ≥ 3 whose neighbouring characters (if any) are not
word characters (`[a-zA-Z0-9_]`); a neighbouring digit or underscore makes
`\b` fail.  `okStart` records whether the character just before the run
being built allows a word boundary; `cur` is the reversed current run. -/
def findWordRuns : List Char → Bool → List Char → List (List Char)
  | [], okStart, cur =>
    if okStart && decide (3 ≤ cur.length) then [cur.reverse] else []
  | c :: rest, okStart, cur =>
    if isAsciiLetter c then findWordRuns rest okStart (c :: cur)
    else
      (if okStart && decide (3 ≤ cur.length) && !isWordChar c then [cur.reverse] else [])
        ++ findWordRuns rest (!isWordChar c) []

/-- Embeds `re.findall(r'\b[a-zA-Z]{3,}\b', text.lower())`, as a list of words in
order of occurrence (with duplicates). -/
def pyWords (text : String) : List String :=
  (findWordRuns (pyLower text).toList true []).map (fun t => String.mk t)

/-- The distinct qualifying keywords of a text in first-occurrence order:
the words of `pyWords` that are not stopwords, deduplicated.  This is the
extension of the Python set comprehension
`{word for word in words if word not in stopwords}`. -/
def keywordList (text : String) : List String :=
  dedupFirstAux ((pyWords text).filter (fun w => ¬ w ∈ stop_words)) []

/-- A set-enumeration order: `σ l` lists the same distinct elements as `l`
in some order.  Models the unspecified iteration order of a Python set. -/
def IsSetOrder (σ : List String → List String) : Prop :=
  ∀ l : List String, List.Perm (σ l) l

/-- Embeds `extract_topic_keywords(text)`: lower-case, take the qualifying words
as a set, then `set(list(keywords)[:10])`.  The set-iteration order used by
`list(...)` is the parameter `σ`. -/
def extract_topic_keywords (σ : List String → List String) (text : String) : Finset String :=
  ((σ (keywordList text)).take 10).toFinset

/-- Embeds `detect_topic_change(old_keywords, new_keywords)`.

The Python code compares IEEE-754 doubles:
`intersection/union < 1 - TOPIC_CHANGE_THRESHOLD` with
`TOPIC_CHANGE_THRESHOLD = 0.7`.  In doubles, `1 - 0.7` is exactly
`0.3000000000000000444089209850062616…`, one ulp above the double nearest
to 3/10 (`0.2999999999999999888977697537484345…`).  For every fraction
`i/u` with `u ≤ 40` (both sets have at most 10 reachable elements plus
slack, so `u ≤ 20` in every reachable call), the correctly rounded double
of `i/u` is below that threshold exactly when the rational `i/u ≤ 3/10`:
the only fraction with small denominator in the critical window is `3/10`
itself, which rounds down.  Hence the float test is embedded as the exact
integer test `10 * i ≤ 3 * u`. -/
def detect_topic_change (old_keywords new_keywords : Finset String) : Bool :=
  if old_keywords = ∅ ∨ new_keywords = ∅ then false
  else
    let i := (old_keywords ∩ new_keywords).card
    let u := (old_keywords ∪ new_keywords).card
    if u = 0 then false
    else decide (10 * i ≤ 3 * u)

/-- Embeds `detect_explicit_topic_change(text)`: some reset phrase occurs as a
substring of `text.lower()`. -/
def detect_explicit_topic_change (text : String) : Bool :=
  AUTO_RESET_KEYWORDS.any (fun k => containsSub k.toList (pyLower text).toList)

/-- One stored message (the dict built by `add_message`). -/
structure Message where
  role : String
  content : String
  timestamp : Nat
  topic_keywords : Finset String
deriving DecidableEq

/-- The per-user `ConversationContext`.  `messages` is the
`deque(maxlen=MAX_HISTORY_LENGTH)` with its left end at the list head. -/
structure ConversationContext where
  messages : List Message
  current_topic : Option String
  topic_keywords : Finset String
  last_reset : Nat
deriving DecidableEq

/-- Embeds `ConversationContext.__init__` at tick `now`. -/
def freshContext (now : Nat) : ConversationContext :=
  { messages := [], current_topic := none, topic_keywords := ∅, last_reset := now }

/-- Embeds `ConversationContext.add_message(role, content, topic_keywords)` at
tick `now`.  A full deque discards its oldest (leftmost) entry; the
context's `topic_keywords` set is updated only when the argument is truthy
(neither `None` nor empty). -/
def ConversationContext.add_message (ctx : ConversationContext) (role content : String)
    (topic_keywords : Option (Finset String)) (now : Nat) : ConversationContext :=
  let m : Message := { role := role, content := content, timestamp := now,
                       topic_keywords := topic_keywords.getD ∅ }
  let msgs := ctx.messages ++ [m]
  { ctx with
    messages := msgs.drop (msgs.length - MAX_HISTORY_LENGTH),
    topic_keywords :=
      match topic_keywords with
      | some k => if k = ∅ then ctx.topic_keywords else ctx.topic_keywords ∪ k
      | none => ctx.topic_keywords }

/-- Embeds `list.index(x)`: position of the first element equal to `x`. -/
def pyIndex : List Message → Message → Nat
  | [], _ => 0
  | a :: t, m => if a = m then 0 else pyIndex t m + 1

/-- Embeds `ConversationContext.get_relevant_messages(current_keywords)`.
An empty (or absent) keyword set is falsy, so it returns the whole deque;
otherwise one pass keeps each message whose first-occurrence index is in
the last 4 positions, or whose stored keyword set overlaps the current
one. -/
def ConversationContext.get_relevant_messages (ctx : ConversationContext)
    (current_keywords : Finset String) : List Message :=
  if current_keywords = ∅ then ctx.messages
  else
    ctx.messages.filter (fun msg =>
      decide (ctx.messages.length - pyIndex ctx.messages msg ≤ 4)
      || (decide (¬ msg.topic_keywords = ∅) && decide (¬ current_keywords = ∅)
          && decide (0 < (msg.topic_keywords ∩ current_keywords).card)))

/-- Embeds `ConversationContext.clear_context()` at tick `now`. -/
def ConversationContext.clear_context (_ctx : ConversationContext) (now : Nat) :
    ConversationContext :=
  { messages := [], current_topic := none, topic_keywords := ∅, last_reset := now }

/-- The module-level state of conversation_manager.py:
`conversation_histories`, `user_topics`, and the tick counter. -/
structure ConvState where
  histories : Nat → Option ConversationContext
  user_topics : Nat → Option (Finset String)
  clock : Nat

/-- The empty module state. -/
def initConvState : ConvState :=
  { histories := fun _ => none, user_topics := fun _ => none, clock := 0 }

/-- Embeds `if user_id not in conversation_histories: conversation_histories[user_id] = ConversationContext()`. -/
def ensureUser (st : ConvState) (user_id : Nat) : ConvState :=
  match st.histories user_id with
  | some _ => st
  | none =>
    { st with
      histories := fun u => if u = user_id then some (freshContext st.clock) else st.histories u,
      clock := st.clock + 1 }

/-- Embeds `get_conversation_history(user_id)`: list of `{"role", "content"}`
pairs for the relevant messages, together with the (possibly extended)
module state. -/
def get_conversation_history (st : ConvState) (user_id : Nat) :
    List (String × String) × ConvState :=
  let st0 := ensureUser st user_id
  match st0.histories user_id with
  | none => ([], st0)
  | some ctx =>
    let current_keywords := (st0.user_topics user_id).getD ∅
    ((ctx.get_relevant_messages current_keywords).map (fun m => (m.role, m.content)), st0)

/-- Notification returned on an explicit reset (leading emoji of the
Python literal omitted). -/
def explicitResetMessage : String := "**New conversation started** - Context cleared!"

/-- Notification returned on an automatic reset (leading emoji of the
Python literal omitted). -/
def autoResetMessage : String := "**Topic change detected** - Starting fresh context!"

/-- Embeds `add_to_conversation_history(user_id, role, content)`: returns the
context-reset notification (if any) and the new module state. -/
def add_to_conversation_history (σ : List String → List String) (st : ConvState)
    (user_id : Nat) (role content : String) : Option String × ConvState :=
  let st0 := ensureUser st user_id
  match st0.histories user_id with
  | none => (none, st0)
  | some ctx =>
    let new_keywords := extract_topic_keywords σ content
    let current_keywords := (st0.user_topics user_id).getD ∅
    if role = "user" then
      if detect_explicit_topic_change content then
        let ctx2 := (ctx.clear_context st0.clock).add_message role content
                      (some new_keywords) (st0.clock + 1)
        (some explicitResetMessage,
         { histories := fun u => if u = user_id then some ctx2 else st0.histories u,
           user_topics := fun u => if u = user_id then some new_keywords else st0.user_topics u,
           clock := st0.clock + 2 })
      else if ¬ current_keywords = ∅ ∧ detect_topic_change current_keywords new_keywords = true then
        if 4 ≤ ctx.messages.length then
          let ctx2 := (ctx.clear_context st0.clock).add_message role content
                        (some new_keywords) (st0.clock + 1)
          (some autoResetMessage,
           { histories := fun u => if u = user_id then some ctx2 else st0.histories u,
             user_topics := fun u => if u = user_id then some new_keywords else st0.user_topics u,
             clock := st0.clock + 2 })
        else
          let ctx2 := ctx.add_message role content (some new_keywords) st0.clock
          (none,
           { histories := fun u => if u = user_id then some ctx2 else st0.histories u,
             user_topics := fun u => if u = user_id then some new_keywords else st0.user_topics u,
             clock := st0.clock + 1 })
      else
        let ctx2 := ctx.add_message role content (some new_keywords) st0.clock
        (none,
         { histories := fun u => if u = user_id then some ctx2 else st0.histories u,
           user_topics := fun u => if u = user_id then some new_keywords else st0.user_topics u,
           clock := st0.clock + 1 })
    else
      let ctx2 := ctx.add_message role content none st0.clock
      (none,
       { histories := fun u => if u = user_id then some ctx2 else st0.histories u,
         user_topics := st0.user_topics,
         clock := st0.clock + 1 })

/-- Embeds `clear_user_context(user_id)`. -/
def clear_user_context (st : ConvState) (user_id : Nat) : Bool × ConvState :=
  match st.histories user_id with
  | some ctx =>
    (true,
     { histories := fun u => if u = user_id then some (ctx.clear_context st.clock) else st.histories u,
       user_topics := fun u => if u = user_id then none else st.user_topics u,
       clock := st.clock + 1 })
  | none => (false, st)

/-! ## fast_main.py: input validation -/

/-- The rejection reasons of `validate_and_sanitize_input`, abstracting the
four distinct error strings of the Python code; `tooLong` carries the data
interpolated into the length-specific message. -/
inductive VError where
  | noError
  | emptyInput
  | tooLong (maxLen got : Nat)
  | tooShort
  | invalidContent
deriving DecidableEq

/-- The non-whitespace chunks of a text, as `str.split()` produces them. -/
def pySplitWs (s : String) : List (List Char) :=
  runsAux (fun c => !pyIsSpace c) s.toList []

/-- Embeds `" ".join(text.strip().split())`: whitespace-normalized text. -/
def pyNormalize (s : String) : String :=
  String.mk (joinSpaces (pySplitWs s))

/-- Length of the longest run of equal adjacent characters. -/
def maxRunAux : List Char → Char → Nat → Nat → Nat
  | [], _, curLen, best => max curLen best
  | c :: rest, prev, curLen, best =>
    if c = prev then maxRunAux rest c (curLen + 1) best
    else maxRunAux rest c 1 (max curLen best)

/-- Length of the longest run of equal adjacent characters of a string. -/
def maxRun (s : String) : Nat :=
  match s.toList with
  | [] => 0
  | c :: rest => maxRunAux rest c 1 0

/-- Embeds `re.search(r'(.)\1{20,}', s)`: a run of at least 21 equal characters
(after normalization `s` holds no newline, so `.` matches every
character). -/
def hasRun21 (s : String) : Bool :=
  decide (21 ≤ maxRun s)

/-- Embeds `re.search(r'(?i)\b(spam|test|aaa+|111+)\b', s)`: some maximal
word-character run of `s` is (case-insensitively) exactly `spam`, `test`,
a run of at least three `a`s, or a run of at least three `1`s.  A longer
token containing one of these cannot match because `\b` fails inside a
word-character run. -/
def lowContentTok (s : String) : Bool :=
  (runsAux isWordChar s.toList []).any (fun t =>
    decide (t.map pyToLower = "spam".toList)
    || decide (t.map pyToLower = "test".toList)
    || (decide (3 ≤ t.length) && t.all (fun c => pyToLower c = 'a'))
    || (decide (3 ≤ t.length) && t.all (fun c => c = '1')))

/-- Embeds `validate_and_sanitize_input(text, max_length=4000)`.
`not text or not text.strip()` is equivalent to the normalized text having
no chunks.  The two prohibited patterns are searched in order, but both
yield the same rejection, so they are embedded as one disjunction. -/
def validate_and_sanitize_input (text : String) (max_length : Nat) :
    Bool × String × VError :=
  if pySplitWs text = [] then (false, "", VError.emptyInput)
  else
    let cleaned := pyNormalize text
    if max_length < cleaned.length then (false, "", VError.tooLong max_length cleaned.length)
    else if cleaned.length < 3 then (false, "", VError.tooShort)
    else if (cleaned.length < 20 ∧ lowContentTok cleaned = true) ∨ hasRun21 cleaned = true then
      (false, "", VError.invalidContent)
    else (true, cleaned, VError.noError)

/-! ## fast_main.py: the worker's retry loop

The model-completion call `mistral_send_prompt` either raises, returns a
non-`None` value, or returns `None` (its chat path catches every exception
internally and returns `None`, see mistral_client_official.py line 441).
An attempt oracle `att : Nat → AttemptOutcome` gives the outcome of the
i-th call made for the job.  The loop body is replayed faithfully: fetch
history, append the prompt for non-image jobs, call the model; on an
exception increment `retry_count`, and when attempts remain sleep
`2 ** retry_count` seconds and (when the update has a message) send one
"Retrying... (attempt retry_count+1/max_retries)" notice; on the last
failed attempt re-raise.  The `while retry_count < max_retries and result
is None` loop has no bound of its own on `None` results, so the embedding
carries a fuel parameter: `fuelOut` means the real loop is still running
after `fuel` iterations. -/

/-- A queued job, as far as the retry loop observes it. -/
structure Job where
  user_id : Nat
  prompt : String
  isImage : Bool
  hasMessage : Bool

/-- Outcome of one `mistral_send_prompt` call. -/
inductive AttemptOutcome where
  | raises (e : String)
  | retNone
  | ret (s : String)

/-- Observable events of the retry loop, in order. -/
inductive WEvent where
  | fetchHistory
  | appendPrompt
  | callModel
  | sleep (secs : Nat)
  | notice (attempt total : Nat)
deriving DecidableEq

/-- How the loop ended: a non-`None` result, a propagated exception, or
still running when the observation fuel ran out. -/
inductive LoopExit where
  | succeeded (r : String)
  | raised (e : String)
  | fuelOut
deriving DecidableEq

/-- Embeds `max_retries = 3`. -/
def max_retries : Nat := 3

/-- The retry loop of `worker`, from `retry_count = rc` with current
`context_reset_message` value `rm`.  Returns the loop exit, the event
trace, the final `context_reset_message`, and the final module state. -/
def workerGo (σ : List String → List String) (att : Nat → AttemptOutcome) (job : Job) :
    Nat → Nat → Option String → ConvState → LoopExit × List WEvent × Option String × ConvState
  | 0, _, rm, st => (LoopExit.fuelOut, [], rm, st)
  | fuel + 1, rc, rm, st =>
    if rc < max_retries then
      let st1 := (get_conversation_history st job.user_id).2
      let p2 := if job.isImage then (rm, st1)
                else add_to_conversation_history σ st1 job.user_id "user" job.prompt
      let rm2 := p2.1
      let st2 := p2.2
      let evs0 := [WEvent.fetchHistory]
                    ++ (if job.isImage then [] else [WEvent.appendPrompt])
                    ++ [WEvent.callModel]
      match att rc with
      | AttemptOutcome.ret s => (LoopExit.succeeded s, evs0, rm2, st2)
      | AttemptOutcome.retNone =>
        let r := workerGo σ att job fuel rc rm2 st2
        (r.1, evs0 ++ r.2.1, r.2.2.1, r.2.2.2)
      | AttemptOutcome.raises e =>
        let rc2 := rc + 1
        if rc2 < max_retries then
          let evsR := [WEvent.sleep (2 ^ rc2)]
                        ++ (if job.hasMessage then [WEvent.notice (rc2 + 1) max_retries] else [])
          let r := workerGo σ att job fuel rc2 rm2 st2
          (r.1, evs0 ++ evsR ++ r.2.1, r.2.2.1, r.2.2.2)
        else (LoopExit.raised e, evs0, rm2, st2)
    else (LoopExit.fuelOut, [], rm, st)

/-- The whole retry block: `retry_count = 0`, `result = None`,
`context_reset_message = None`. -/
def worker_retry (σ : List String → List String) (att : Nat → AttemptOutcome) (job : Job)
    (fuel : Nat) (st : ConvState) : LoopExit × List WEvent × Option String × ConvState :=
  workerGo σ att job fuel 0 none st

/-! ## Specification-side definitions and concrete fixtures -/

/-- Position-aware filter: keeps the elements whose 0-based position `i`
satisfies `q i m`, starting from position `j`. -/
def idxFilter (q : Nat → Message → Bool) : Nat → List Message → List Message
  | _, [] => []
  | j, m :: t => (if q j m then [m] else []) ++ idxFilter q (j + 1) t

/-- Modelled from the spec sentence for `get_relevant_messages` with a
non-empty tracked keyword set: the most recent 4 stored messages plus
every older stored message whose stored keyword set meets the tracked
set, in original insertion order. -/
def relevantSpec (msgs : List Message) (current : Finset String) : List Message :=
  idxFilter
    (fun i m => decide (msgs.length ≤ i + 4) || decide ((m.topic_keywords ∩ current).Nonempty))
    0 msgs

/-- Recognises backoff-sleep events. -/
def isSleepEv : WEvent → Bool
  | WEvent.sleep _ => true
  | _ => false

/-- Recognises retry-notice events. -/
def isNoticeEv : WEvent → Bool
  | WEvent.notice _ _ => true
  | _ => false

/-- A text with exactly 11 distinct qualifying keywords. -/
def elevenKeywordText : String :=
  "python coding algorithm compiler syntax semantics debugging weather sunshine temperature rainfall"

/-- First user message of the boundary-similarity scenario: 7 qualifying
keywords. -/
def boundaryTextA : String :=
  "python coding algorithm compiler syntax semantics debugging"

/-- Second user message of the boundary-similarity scenario: 6 qualifying
keywords, 3 of them shared with `boundaryTextA`, so the Jaccard similarity
of the two keyword sets is exactly 3/10. -/
def boundaryTextB : String :=
  "python coding algorithm weather sunshine temperature"

/-- State after the first user message and three assistant messages of the
boundary-similarity scenario: 4 stored messages, tracked keywords from
`boundaryTextA`. -/
def boundaryState : ConvState :=
  (add_to_conversation_history id
    (add_to_conversation_history id
      (add_to_conversation_history id
        (add_to_conversation_history id initConvState 1 "user" boundaryTextA).2
        1 "assistant" "okay").2
      1 "assistant" "sure").2
    1 "assistant" "fine").2

/-- Result of appending `boundaryTextB` for the same user. -/
def boundaryResult : Option String × ConvState :=
  add_to_conversation_history id boundaryState 1 "user" boundaryTextB

/-- The stored context of user 1 in `boundaryState` (total function for
use in closed statements). -/
def boundaryCtx : ConversationContext :=
  match boundaryState.histories 1 with
  | some c => c
  | none => freshContext 0

/-- Tracked keyword set extracted from `boundaryTextA`. -/
def boundaryKwA : Finset String := extract_topic_keywords id boundaryTextA

/-- Keyword set extracted from `boundaryTextB`. -/
def boundaryKwB : Finset String := extract_topic_keywords id boundaryTextB

/-- Two user messages with disjoint 6-element keyword sets, appended for
the same user. -/
def unionGrowthState : ConvState :=
  (add_to_conversation_history id
    (add_to_conversation_history id initConvState 1 "user"
      "python coding compiler syntax semantics debugging").2
    1 "user" "weather sunshine temperature rainfall humidity forecast").2

/-- Size of `ConversationContext.topic_keywords` for user 1 after the two
appends of `unionGrowthState`. -/
def unionGrowthCard : Nat :=
  match unionGrowthState.histories 1 with
  | some c => c.topic_keywords.card
  | none => 0

/-- A plain non-image job whose update carries a message. -/
def jobPlain : Job :=
  { user_id := 7, prompt := "tell me about python", isImage := false, hasMessage := true }

/-- Attempt oracle: every call returns `None` without raising (as the
chat path of `send_prompt` does on any API error). -/
def attAllNone : Nat → AttemptOutcome := fun _ => AttemptOutcome.retNone

/-- Attempt oracle: two raising attempts, then a successful one. -/
def attFailFailOk : Nat → AttemptOutcome
  | 0 => AttemptOutcome.raises "boom1"
  | 1 => AttemptOutcome.raises "boom2"
  | _ => AttemptOutcome.ret "answer"

/-- Attempt oracle: every attempt raises. -/
def attAllFail : Nat → AttemptOutcome := fun _ => AttemptOutcome.raises "down"

/-- Attempt oracle: one raising attempt, then a successful one. -/
def attFailOk : Nat → AttemptOutcome
  | 0 => AttemptOutcome.raises "blip"
  | _ => AttemptOutcome.ret "answer"

/-- A six-message context with pairwise distinct timestamps, used to
instantiate the history-filtering theorem. -/
def sixMsgCtx : ConversationContext :=
  { messages :=
      [ { role := "user", content := "m0", timestamp := 0, topic_keywords := {"cats"} },
        { role := "user", content := "m1", timestamp := 1, topic_keywords := {"dogs"} },
        { role := "user", content := "m2", timestamp := 2, topic_keywords := ∅ },
        { role := "user", content := "m3", timestamp := 3, topic_keywords := {"cats"} },
        { role := "user", content := "m4", timestamp := 4, topic_keywords := ∅ },
        { role := "user", content := "m5", timestamp := 5, topic_keywords := {"fish"} } ],
    current_topic := none, topic_keywords := {"cats", "dogs", "fish"}, last_reset := 0 }

/-- A full 12-message context, used to instantiate the FIFO theorem. -/
def twelveMsgCtx : ConversationContext :=
  { messages := (List.range 12).map
      (fun i => { role := "user", content := "old", timestamp := i, topic_keywords := ∅ }),
    current_topic := none, topic_keywords := ∅, last_reset := 0 }

/-- A state in which user 1 has one stored message and user 2 has none. -/
def oneMsgState : ConvState :=
  { histories := fun u =>
      if u = 1 then
        some { messages := [{ role := "user", content := "hi there", timestamp := 0,
                              topic_keywords := ∅ }],
               current_topic := none, topic_keywords := ∅, last_reset := 0 }
      else none,
    user_topics := fun _ => none,
    clock := 5 }

/-- A 50-character well-formed sentence (already whitespace-normal). -/
def fiftyCharSentence : String := "The quick brown fox jumps over the lazy dog today."

/-! ## Helper lemmas -/

/-- After `ensureUser`, the user has a stored context. -/
lemma ensureUser_self (st : ConvState) (uid : Nat) :
    ∃ ctx, (ensureUser st uid).histories uid = some ctx := by
  unfold ensureUser
  cases h : st.histories uid with
  | some c => exact ⟨c, by simp [h]⟩
  | none => exact ⟨freshContext st.clock, by simp⟩

/-- A user that already has a context is left untouched by `ensureUser`. -/
lemma ensureUser_of_some {st : ConvState} {uid : Nat} {c : ConversationContext}
    (h : st.histories uid = some c) : ensureUser st uid = st := by
  unfold ensureUser
  rw [h]

/-- The tracked-topic table is not changed by `ensureUser`. -/
lemma ensureUser_topics (st : ConvState) (uid : Nat) :
    (ensureUser st uid).user_topics = st.user_topics := by
  unfold ensureUser
  cases h : st.histories uid <;> rfl

/-- The state effect of `get_conversation_history` is exactly `ensureUser`. -/
lemma get_history_state (st : ConvState) (uid : Nat) :
    (get_conversation_history st uid).2 = ensureUser st uid := by
  unfold get_conversation_history
  cases h : (ensureUser st uid).histories uid <;> simp [h]

/-- A keyword set never differs enough from itself to trigger a topic
change. -/
lemma detect_topic_change_self (K : Finset String) :
    detect_topic_change K K = false := by
  unfold detect_topic_change
  by_cases hK : K = ∅
  · simp [hK]
  · have hcard : 0 < K.card := Finset.card_pos.mpr (Finset.nonempty_iff_ne_empty.mpr hK)
    simp only [hK, or_self, if_false]
    simp only [Finset.inter_self, Finset.union_self]
    by_cases hu : K.card = 0
    · omega
    · simp [hu]
      omega

/-! ## Claim C4 -/

/-- **C4**: the stored message sequence never exceeds 12 entries, and an
append onto a full deque evicts exactly the oldest stored message,
leaving the remaining 11 unchanged and in order; an append below the
bound is a plain append (so a 13th append evicts exactly the first
message appended). -/
theorem add_message_fifo_bound (ctx : ConversationContext) (role content : String)
    (kw : Option (Finset String)) (now : Nat) (h : ctx.messages.length ≤ 12) :
    ((ctx.add_message role content kw now).messages.length ≤ 12)
    ∧ (ctx.messages.length = 12 →
        (ctx.add_message role content kw now).messages
          = ctx.messages.tail
              ++ [{ role := role, content := content, timestamp := now,
                    topic_keywords := kw.getD ∅ }])
    ∧ (ctx.messages.length < 12 →
        (ctx.add_message role content kw now).messages
          = ctx.messages
              ++ [{ role := role, content := content, timestamp := now,
                    topic_keywords := kw.getD ∅ }]) := by
  unfold ConversationContext.add_message MAX_HISTORY_LENGTH
  dsimp only
  refine ⟨?_, ?_, ?_⟩
  · simp only [List.length_drop, List.length_append, List.length_singleton]
    omega
  · intro h12
    have hd : (ctx.messages
        ++ [(⟨role, content, now, kw.getD ∅⟩ : Message)]).length - 12 = 1 := by
      simp [h12]
    rw [hd, List.drop_append_of_le_length (by omega), List.drop_one]
  · intro hlt
    have hd : (ctx.messages
        ++ [(⟨role, content, now, kw.getD ∅⟩ : Message)]).length - 12 = 0 := by
      simp only [List.length_append, List.length_singleton]
      omega
    rw [hd, List.drop_zero]

/-- Witness for C4 at a concrete full context. -/
theorem add_message_fifo_bound_witness :
    twelveMsgCtx.messages.length ≤ 12
    ∧ (((twelveMsgCtx.add_message "user" "new" none 77).messages.length ≤ 12)
        ∧ (twelveMsgCtx.messages.length = 12 →
            (twelveMsgCtx.add_message "user" "new" none 77).messages
              = twelveMsgCtx.messages.tail
                  ++ [{ role := "user", content := "new", timestamp := 77,
                        topic_keywords := (none : Option (Finset String)).getD ∅ }])
        ∧ (twelveMsgCtx.messages.length < 12 →
            (twelveMsgCtx.add_message "user" "new" none 77).messages
              = twelveMsgCtx.messages
                  ++ [{ role := "user", content := "new", timestamp := 77,
                        topic_keywords := (none : Option (Finset String)).getD ∅ }])) :=
  ⟨by decide, add_message_fifo_bound twelveMsgCtx "user" "new" none 77 (by decide)⟩

/-! ## Claim C8 -/

/-- **C8**: `clear_user_context` returns `false` for a user with no prior
context (leaving the state unchanged); for a user with at least one
stored message it returns `true`, and a subsequent
`get_conversation_history` for that user returns the empty list. -/
theorem clear_user_context_spec (st : ConvState) (uid : Nat) :
    (st.histories uid = none → clear_user_context st uid = (false, st))
    ∧ (∀ ctx, st.histories uid = some ctx → 0 < ctx.messages.length →
        (clear_user_context st uid).1 = true
        ∧ (get_conversation_history (clear_user_context st uid).2 uid).1 = []) := by
  constructor
  · intro hnone
    unfold clear_user_context
    rw [hnone]
  · intro ctx hsome _
    unfold clear_user_context
    rw [hsome]
    refine ⟨rfl, ?_⟩
    unfold get_conversation_history
    have hst : ((⟨fun u => if u = uid then some (ctx.clear_context st.clock) else st.histories u,
        fun u => if u = uid then none else st.user_topics u, st.clock + 1⟩ : ConvState)).histories uid
        = some (ctx.clear_context st.clock) := by simp
    rw [ensureUser_of_some hst]
    simp [hst, ConversationContext.get_relevant_messages, ConversationContext.clear_context]

/-- Witness for C8: user 2 has no context, user 1 has one stored
message. -/
theorem clear_user_context_spec_witness :
    (clear_user_context oneMsgState 2 = (false, oneMsgState))
    ∧ ((clear_user_context oneMsgState 1).1 = true
        ∧ (get_conversation_history (clear_user_context oneMsgState 1).2 1).1 = []) :=
  ⟨(clear_user_context_spec oneMsgState 2).1 rfl,
   (clear_user_context_spec oneMsgState 1).2
     { messages := [{ role := "user", content := "hi there", timestamp := 0,
                      topic_keywords := ∅ }],
       current_topic := none, topic_keywords := ∅, last_reset := 0 }
     rfl (by decide)⟩

/-! ## Claim C5 -/

/-- **C5**: an append with role `user` whose content contains an explicit
reset phrase clears the context (history, topic keywords, reset
timestamp), regardless of prior keyword overlap or stored-history length,
returns the explicit-reset notification (which differs from the automatic
one), and skips implicit drift detection: the resulting context is
exactly the cleared context with the new message appended. -/
theorem explicit_reset_clears_context (σ : List String → List String) (st : ConvState)
    (uid : Nat) (content : String)
    (hex : detect_explicit_topic_change content = true) :
    (add_to_conversation_history σ st uid "user" content).1 = some explicitResetMessage
    ∧ explicitResetMessage ≠ autoResetMessage
    ∧ (add_to_conversation_history σ st uid "user" content).2.histories uid
        = some { messages := [{ role := "user", content := content,
                                timestamp := (ensureUser st uid).clock + 1,
                                topic_keywords := extract_topic_keywords σ content }],
                 current_topic := none,
                 topic_keywords := extract_topic_keywords σ content,
                 last_reset := (ensureUser st uid).clock }
    ∧ (add_to_conversation_history σ st uid "user" content).2.user_topics uid
        = some (extract_topic_keywords σ content) := by
  obtain ⟨ctx, hctx⟩ := ensureUser_self st uid
  have hne : explicitResetMessage ≠ autoResetMessage := by decide
  refine ⟨?_, hne, ?_, ?_⟩ <;>
    simp only [add_to_conversation_history, hctx, hex, ConversationContext.clear_context,
               ConversationContext.add_message, MAX_HISTORY_LENGTH, if_true, if_pos rfl] <;>
    by_cases hK : extract_topic_keywords σ content = ∅ <;>
    simp [hK]

/-- Witness for C5 at a concrete state and reset phrase. -/
theorem explicit_reset_clears_context_witness :
    detect_explicit_topic_change "ok new topic please" = true
    ∧ ((add_to_conversation_history id oneMsgState 1 "user" "ok new topic please").1
         = some explicitResetMessage
       ∧ explicitResetMessage ≠ autoResetMessage
       ∧ (add_to_conversation_history id oneMsgState 1 "user" "ok new topic please").2.histories 1
           = some { messages := [{ role := "user", content := "ok new topic please",
                                   timestamp := (ensureUser oneMsgState 1).clock + 1,
                                   topic_keywords :=
                                     extract_topic_keywords id "ok new topic please" }],
                    current_topic := none,
                    topic_keywords := extract_topic_keywords id "ok new topic please",
                    last_reset := (ensureUser oneMsgState 1).clock }
       ∧ (add_to_conversation_history id oneMsgState 1 "user" "ok new topic please").2.user_topics 1
           = some (extract_topic_keywords id "ok new topic please")) :=
  ⟨by decide, explicit_reset_clears_context id oneMsgState 1 "ok new topic please" (by decide)⟩

/-! ## Claim C7 -/

/-- **C7 counterexample**: after two user messages with disjoint 6-keyword
sets, the `ConversationContext.topic_keywords` set of user 1 holds 12
entries — the per-context keyword set accumulates the union of all
message keyword sets and is not capped at 10. -/
theorem context_topic_keywords_exceed_ten :
    unionGrowthCard = 12 ∧ ¬ unionGrowthCard ≤ 10 := by
  constructor <;> decide

/-- **C7 (amended)**: every keyword set produced by
`extract_topic_keywords` has at most 10 entries, and the tracked
current-topic table `user_topics` stores at most 10 keywords per user
after any append, provided it did before; the unbounded set is only the
context's accumulated `topic_keywords` union (see the counterexample). -/
theorem tracked_topic_bound (σ : List String → List String) (st : ConvState)
    (uid : Nat) (role content : String) (u : Nat)
    (hb : ((st.user_topics u).getD ∅).card ≤ 10) :
    (extract_topic_keywords σ content).card ≤ 10
    ∧ (((add_to_conversation_history σ st uid role content).2.user_topics u).getD ∅).card ≤ 10 := by
  have hx : ∀ text, (extract_topic_keywords σ text).card ≤ 10 := by
    intro text
    unfold extract_topic_keywords
    refine le_trans (List.toFinset_card_le _) ?_
    rw [List.length_take]
    exact min_le_left _ _
  refine ⟨hx content, ?_⟩
  obtain ⟨ctx, hctx⟩ := ensureUser_self st uid
  have hb0 : (((ensureUser st uid).user_topics u).getD ∅).card ≤ 10 := by
    rw [ensureUser_topics]
    exact hb
  simp only [add_to_conversation_history, hctx]
  split_ifs <;> by_cases hu : u = uid <;> simp only [hu, if_pos rfl, if_neg, Option.getD_some] <;>
    first
      | exact hx content
      | exact hb0
      | (rw [hu] at hb0; exact hb0)
      | (simp only [if_neg hu]; exact hb0)

/-- Witness for C7's amended theorem at a concrete append. -/
theorem tracked_topic_bound_witness :
    ((initConvState.user_topics 1).getD ∅).card ≤ 10
    ∧ ((extract_topic_keywords id boundaryTextA).card ≤ 10
       ∧ (((add_to_conversation_history id initConvState 1 "user" boundaryTextA).2.user_topics 1).getD
            ∅).card ≤ 10) :=
  ⟨by decide, tracked_topic_bound id initConvState 1 "user" boundaryTextA 1 (by decide)⟩

/-! ## Claim C2 -/

/-- Shifting the position argument of `idxFilter` by one. -/
lemma idxFilter_succ (q : Nat → Message → Bool) :
    ∀ (t : List Message) (j : Nat),
      idxFilter (fun i m => q (i + 1) m) j t = idxFilter q (j + 1) t := by
  intro t
  induction t with
  | nil => intro j; rfl
  | cons a t ih =>
    intro j
    simp only [idxFilter, ih]

/-- Embeds `pyIndex` at the head of a list. -/
lemma pyIndex_cons_self (a : Message) (t : List Message) : pyIndex (a :: t) a = 0 := by
  simp [pyIndex]

/-- Embeds `pyIndex` below a distinct head. -/
lemma pyIndex_cons_ne (a m : Message) (t : List Message) (h : ¬ a = m) :
    pyIndex (a :: t) m = pyIndex t m + 1 := by
  simp [pyIndex, h]

/-- On a duplicate-free list, filtering by a predicate of the
first-occurrence index (as `list.index` computes it) agrees with
position-indexed filtering. -/
lemma filter_pyIndex_eq :
    ∀ (q : Nat → Message → Bool) (l : List Message), l.Nodup →
      l.filter (fun m => q (pyIndex l m) m) = idxFilter q 0 l := by
  intro q l
  induction l generalizing q with
  | nil => intro _; rfl
  | cons a t ih =>
    intro hnd
    obtain ⟨ha, ht⟩ := List.nodup_cons.mp hnd
    have hstep : t.filter (fun m => q (pyIndex (a :: t) m) m)
        = t.filter (fun m => q (pyIndex t m + 1) m) := by
      apply List.filter_congr
      intro m hm
      have hne : ¬ a = m := fun heq => ha (heq ▸ hm)
      rw [pyIndex_cons_ne a m t hne]
    have hrec : t.filter (fun m => q (pyIndex t m + 1) m)
        = idxFilter (fun i m => q (i + 1) m) 0 t := ih (fun i m => q (i + 1) m) ht
    by_cases hq : q 0 a = true
    · rw [List.filter_cons_of_pos (by rw [pyIndex_cons_self]; exact hq)]
      rw [hstep, hrec, idxFilter_succ]
      simp [idxFilter, hq]
    · rw [List.filter_cons_of_neg (by rw [pyIndex_cons_self]; simpa using hq)]
      rw [hstep, hrec, idxFilter_succ]
      simp [idxFilter, hq]

/-- Pointwise-equal predicates give equal `idxFilter` results. -/
lemma idxFilter_congr (q q2 : Nat → Message → Bool) (h : ∀ i m, q i m = q2 i m) :
    ∀ (l : List Message) (j : Nat), idxFilter q j l = idxFilter q2 j l := by
  intro l
  induction l with
  | nil => intro j; rfl
  | cons a t ih => intro j; simp only [idxFilter, h, ih]

/-- **C2**: with no tracked topic keywords, `get_relevant_messages`
returns the full bounded history in insertion order; with a non-empty
tracked set (and duplicate-free stored messages, which the strictly
increasing timestamps guarantee), it returns exactly the most recent 4
stored messages plus every older stored message whose stored keyword set
meets the tracked set, in original insertion order, each stored message
contributing at most once. -/
theorem get_relevant_messages_spec (ctx : ConversationContext) (current : Finset String)
    (hnd : ctx.messages.Nodup) :
    (current = ∅ → ctx.get_relevant_messages current = ctx.messages)
    ∧ (¬ current = ∅ →
        ctx.get_relevant_messages current = relevantSpec ctx.messages current) := by
  constructor
  · intro hcur
    unfold ConversationContext.get_relevant_messages
    rw [if_pos hcur]
  · intro hcur
    unfold ConversationContext.get_relevant_messages relevantSpec
    rw [if_neg hcur]
    have hfe := filter_pyIndex_eq
      (fun i msg => decide (ctx.messages.length - i ≤ 4)
        || (decide (¬ msg.topic_keywords = ∅) && decide (¬ current = ∅)
            && decide (0 < (msg.topic_keywords ∩ current).card)))
      ctx.messages hnd
    rw [hfe]
    apply idxFilter_congr
    intro i m
    have h1 : decide (ctx.messages.length - i ≤ 4) = decide (ctx.messages.length ≤ i + 4) :=
      decide_eq_decide.mpr (by omega)
    have h2 : (decide (¬ m.topic_keywords = ∅) && decide (¬ current = ∅)
          && decide (0 < (m.topic_keywords ∩ current).card))
        = decide (m.topic_keywords ∩ current).Nonempty := by
      rw [Bool.eq_iff_iff]
      simp only [Bool.and_eq_true, decide_eq_true_eq]
      constructor
      · rintro ⟨⟨_, _⟩, hc⟩
        exact Finset.card_pos.mp hc
      · intro hne
        obtain ⟨x, hx⟩ := hne
        have hxkw := Finset.mem_of_mem_inter_left hx
        refine ⟨⟨?_, hcur⟩, Finset.card_pos.mpr ⟨x, hx⟩⟩
        intro hemp
        rw [hemp] at hxkw
        exact absurd hxkw (Finset.not_mem_empty x)
    rw [h1, h2]

/-- Witness for C2 at a concrete six-message context. -/
theorem get_relevant_messages_spec_witness :
    sixMsgCtx.messages.Nodup
    ∧ ((({"cats"} : Finset String) = ∅ →
          sixMsgCtx.get_relevant_messages {"cats"} = sixMsgCtx.messages)
       ∧ (¬ ({"cats"} : Finset String) = ∅ →
          sixMsgCtx.get_relevant_messages {"cats"} = relevantSpec sixMsgCtx.messages {"cats"})) :=
  ⟨by decide, get_relevant_messages_spec sixMsgCtx {"cats"} (by decide)⟩

/-! ## Claim C3 -/

/-- **C3 counterexample**: on a text with 11 distinct qualifying tokens,
the reversed set-enumeration order (a legitimate enumeration of the same
set) makes `extract_topic_keywords` keep a different 10-element subset
than the first 10 tokens in order of appearance, and a different subset
than the identity enumeration keeps — so the cap does not select the
first 10 by appearance and two runs with different set-iteration orders
disagree. -/
theorem extract_topic_keywords_order_dependent :
    IsSetOrder List.reverse
    ∧ extract_topic_keywords List.reverse elevenKeywordText
        ≠ ((keywordList elevenKeywordText).take 10).toFinset
    ∧ extract_topic_keywords List.reverse elevenKeywordText
        ≠ extract_topic_keywords id elevenKeywordText :=
  ⟨fun l => l.reverse_perm, by decide, by decide⟩

/-- **C3 (amended)**: for every valid set-enumeration order,
`extract_topic_keywords` lower-cases the text and keeps qualifying tokens
(alphabetic, length ≥ 3, not stopwords); it returns at most 10 of them,
always a subset of the qualifying tokens, and when at most 10 distinct
qualifying tokens occur it returns exactly that set (hence is
deterministic in that case); with more than 10, which 10 survive depends
on the unspecified enumeration order. -/
theorem extract_topic_keywords_spec (σ : List String → List String)
    (hσ : IsSetOrder σ) (text : String) :
    (extract_topic_keywords σ text).card ≤ 10
    ∧ extract_topic_keywords σ text ⊆ (keywordList text).toFinset
    ∧ ((keywordList text).length ≤ 10 →
        extract_topic_keywords σ text = (keywordList text).toFinset) := by
  refine ⟨?_, ?_, ?_⟩
  · unfold extract_topic_keywords
    refine le_trans (List.toFinset_card_le _) ?_
    rw [List.length_take]
    exact min_le_left _ _
  · intro x hx
    unfold extract_topic_keywords at hx
    rw [List.mem_toFinset] at hx
    have hx2 : x ∈ σ (keywordList text) := List.take_subset _ _ hx
    rw [List.mem_toFinset]
    exact (hσ (keywordList text)).mem_iff.mp hx2
  · intro hlen
    unfold extract_topic_keywords
    have hlen2 : (σ (keywordList text)).length ≤ 10 := by
      rw [(hσ (keywordList text)).length_eq]
      exact hlen
    rw [List.take_of_length_le hlen2]
    exact List.toFinset_eq_of_perm _ _ (hσ (keywordList text))

/-- Witness for C3's amended theorem with the identity enumeration. -/
theorem extract_topic_keywords_spec_witness :
    IsSetOrder id
    ∧ ((extract_topic_keywords id boundaryTextB).card ≤ 10
       ∧ extract_topic_keywords id boundaryTextB ⊆ (keywordList boundaryTextB).toFinset
       ∧ ((keywordList boundaryTextB).length ≤ 10 →
           extract_topic_keywords id boundaryTextB = (keywordList boundaryTextB).toFinset)) :=
  ⟨fun l => List.Perm.refl l, extract_topic_keywords_spec id (fun l => List.Perm.refl l) boundaryTextB⟩

/-! ## Claim C6 -/

/-- **C6 counterexample**: with 4 stored messages and tracked keywords
from `boundaryTextA`, appending `boundaryTextB` (no reset phrase) fires
the automatic reset although the Jaccard similarity of tracked and new
keyword sets is exactly 3/10 — not strictly below 0.3.  The float
threshold `1 - 0.7` slightly exceeds 0.3, so equality fires. -/
theorem auto_reset_fires_at_boundary_similarity :
    boundaryResult.1 = some autoResetMessage
    ∧ (boundaryKwA ∩ boundaryKwB).card = 3
    ∧ (boundaryKwA ∪ boundaryKwB).card = 10
    ∧ ¬ 10 * (boundaryKwA ∩ boundaryKwB).card < 3 * (boundaryKwA ∪ boundaryKwB).card :=
  ⟨by decide, by decide, by decide, by decide⟩

/-- **C6 (amended)**: for a user-role append without an explicit reset
phrase, no automatic reset occurs while fewer than 4 messages are stored
(the message is appended onto the intact history); the automatic
notification appears exactly when the tracked keyword set is non-empty,
`detect_topic_change` fires, and at least 4 messages are stored; and
`detect_topic_change` fires exactly when both sets are non-empty and the
Jaccard similarity is at most 3/10 (at most, not strictly below, 0.3 —
because the float threshold `1 - 0.7` exceeds 0.3 by one ulp). -/
theorem auto_reset_conditions (σ : List String → List String) (st : ConvState) (uid : Nat)
    (content : String) (ctx : ConversationContext)
    (hctx : (ensureUser st uid).histories uid = some ctx)
    (hex : detect_explicit_topic_change content = false) :
    (ctx.messages.length < 4 →
        (add_to_conversation_history σ st uid "user" content).1 = none
        ∧ (add_to_conversation_history σ st uid "user" content).2.histories uid
            = some (ctx.add_message "user" content (some (extract_topic_keywords σ content))
                      (ensureUser st uid).clock))
    ∧ ((add_to_conversation_history σ st uid "user" content).1 = some autoResetMessage ↔
        (¬ ((ensureUser st uid).user_topics uid).getD ∅ = ∅
         ∧ detect_topic_change (((ensureUser st uid).user_topics uid).getD ∅)
             (extract_topic_keywords σ content) = true
         ∧ 4 ≤ ctx.messages.length))
    ∧ (detect_topic_change (((ensureUser st uid).user_topics uid).getD ∅)
          (extract_topic_keywords σ content) = true ↔
        (¬ ((ensureUser st uid).user_topics uid).getD ∅ = ∅
         ∧ ¬ extract_topic_keywords σ content = ∅
         ∧ 10 * ((((ensureUser st uid).user_topics uid).getD ∅)
                  ∩ extract_topic_keywords σ content).card
             ≤ 3 * ((((ensureUser st uid).user_topics uid).getD ∅)
                  ∪ extract_topic_keywords σ content).card)) := by
  have hdet : ∀ C K : Finset String,
      detect_topic_change C K = true ↔
        (¬ C = ∅ ∧ ¬ K = ∅ ∧ 10 * (C ∩ K).card ≤ 3 * (C ∪ K).card) := by
    intro C K
    unfold detect_topic_change
    by_cases hC : C = ∅
    · simp [hC]
    · by_cases hK : K = ∅
      · simp [hC, hK]
      · have hu : ¬ (C ∪ K).card = 0 := by
          rw [Finset.card_eq_zero]
          intro hun
          apply hC
          rw [← Finset.subset_empty, ← hun]
          exact Finset.subset_union_left
        simp [hC, hK, hu]
  refine ⟨?_, ?_, hdet _ _⟩
  · intro h4
    simp only [add_to_conversation_history, hctx, hex, eq_self_iff_true, if_true,
               Bool.false_eq_true, if_false]
    split_ifs with hc1 hc2 <;> first | omega | exact ⟨rfl, by simp⟩
  · constructor
    · intro hsome
      simp only [add_to_conversation_history, hctx, hex, eq_self_iff_true, if_true,
                 Bool.false_eq_true, if_false] at hsome
      split_ifs at hsome with hc1 hc2 <;>
        first
          | exact ⟨hc1.1, hc1.2, hc2⟩
          | simp at hsome
    · rintro ⟨hC, hdt, h4⟩
      simp only [add_to_conversation_history, hctx, hex, eq_self_iff_true, if_true,
                 Bool.false_eq_true, if_false]
      rw [if_pos ⟨hC, hdt⟩, if_pos h4]

/-- Witness for C6's amended theorem at the boundary-similarity state. -/
theorem auto_reset_conditions_witness :
    (ensureUser boundaryState 1).histories 1 = some boundaryCtx
    ∧ detect_explicit_topic_change boundaryTextB = false
    ∧ ((boundaryCtx.messages.length < 4 →
          (add_to_conversation_history id boundaryState 1 "user" boundaryTextB).1 = none
          ∧ (add_to_conversation_history id boundaryState 1 "user" boundaryTextB).2.histories 1
              = some (boundaryCtx.add_message "user" boundaryTextB
                        (some (extract_topic_keywords id boundaryTextB))
                        (ensureUser boundaryState 1).clock))
       ∧ ((add_to_conversation_history id boundaryState 1 "user" boundaryTextB).1
             = some autoResetMessage ↔
           (¬ ((ensureUser boundaryState 1).user_topics 1).getD ∅ = ∅
            ∧ detect_topic_change (((ensureUser boundaryState 1).user_topics 1).getD ∅)
                (extract_topic_keywords id boundaryTextB) = true
            ∧ 4 ≤ boundaryCtx.messages.length))
       ∧ (detect_topic_change (((ensureUser boundaryState 1).user_topics 1).getD ∅)
             (extract_topic_keywords id boundaryTextB) = true ↔
           (¬ ((ensureUser boundaryState 1).user_topics 1).getD ∅ = ∅
            ∧ ¬ extract_topic_keywords id boundaryTextB = ∅
            ∧ 10 * ((((ensureUser boundaryState 1).user_topics 1).getD ∅)
                     ∩ extract_topic_keywords id boundaryTextB).card
                ≤ 3 * ((((ensureUser boundaryState 1).user_topics 1).getD ∅)
                     ∪ extract_topic_keywords id boundaryTextB).card))) :=
  ⟨by decide, by decide,
   auto_reset_conditions id boundaryState 1 boundaryTextB boundaryCtx (by decide) (by decide)⟩

/-! ## Claim C9 -/

/-- On a list whose characters all satisfy `p`, `runsAux` yields the one
maximal run (the pending prefix and the rest), or nothing when both are
empty. -/
lemma runsAux_all (p : Char → Bool) :
    ∀ (l cur : List Char), (∀ c ∈ l, p c = true) →
      runsAux p l cur = if cur.reverse ++ l = [] then [] else [cur.reverse ++ l] := by
  intro l
  induction l with
  | nil =>
    intro cur _
    simp [runsAux]
  | cons c rest ih =>
    intro cur hall
    have hc : p c = true := hall c (List.mem_cons_self c rest)
    have hrest : ∀ x ∈ rest, p x = true := fun x hx => hall x (List.mem_cons_of_mem c hx)
    simp only [runsAux, hc, if_true]
    rw [ih (c :: cur) hrest]
    simp

/-- Splitting a non-empty all-letter string yields that single chunk. -/
lemma pySplitWs_replicate_b (n : Nat) (hn : 0 < n) :
    pySplitWs (String.mk (List.replicate n 'b')) = [List.replicate n 'b'] := by
  unfold pySplitWs
  have htl : (String.mk (List.replicate n 'b')).toList = List.replicate n 'b' := rfl
  rw [htl, runsAux_all (fun c => !pyIsSpace c) (List.replicate n 'b') []
        (fun c hc => by rw [List.eq_of_mem_replicate hc]; rfl)]
  have hne : ¬ (List.reverse ([] : List Char) ++ List.replicate n 'b' = []) := by
    rw [List.reverse_nil, List.nil_append]
    intro hemp
    have := congrArg List.length hemp
    rw [List.length_replicate] at this
    simp at this
    omega
  rw [if_neg hne]
  rw [List.reverse_nil, List.nil_append]

/-- Normalizing a non-empty all-letter string is the identity. -/
lemma pyNormalize_replicate_b (n : Nat) (hn : 0 < n) :
    pyNormalize (String.mk (List.replicate n 'b')) = String.mk (List.replicate n 'b') := by
  unfold pyNormalize
  rw [pySplitWs_replicate_b n hn]
  rfl

set_option maxRecDepth 65536 in
/-- **C9**: `validate_and_sanitize_input` rejects exactly the inputs the
spec lists — empty or whitespace-only text, normalized length above the
maximum, normalized length under 3, a run of at least 21 repeated
characters, or a short (under 20 chars) text with a low-content token —
and in particular rejects "aaaaa", rejects 4096 repeated characters with
the length-specific error carrying both lengths, and accepts a
50-character sentence returning it whitespace-normalized (here:
unchanged). -/
theorem validate_and_sanitize_spec :
    (∀ text : String,
        ((validate_and_sanitize_input text 4000).1 = false ↔
          (pySplitWs text = []
           ∨ 4000 < (pyNormalize text).length
           ∨ (pyNormalize text).length < 3
           ∨ hasRun21 (pyNormalize text) = true
           ∨ ((pyNormalize text).length < 20 ∧ lowContentTok (pyNormalize text) = true))))
    ∧ validate_and_sanitize_input "aaaaa" 4000 = (false, "", VError.invalidContent)
    ∧ validate_and_sanitize_input (String.mk (List.replicate 4096 'b')) 4000
        = (false, "", VError.tooLong 4000 4096)
    ∧ (validate_and_sanitize_input fiftyCharSentence 4000
         = (true, fiftyCharSentence, VError.noError)
       ∧ fiftyCharSentence.length = 50
       ∧ pyNormalize fiftyCharSentence = fiftyCharSentence) := by
  refine ⟨?_, by decide, ?_, by decide, by decide, by decide⟩
  · intro text
    by_cases h1 : pySplitWs text = []
    · simp [validate_and_sanitize_input, h1]
    · by_cases h2 : 4000 < (pyNormalize text).length
      · simp [validate_and_sanitize_input, h1, h2]
      · by_cases h3 : (pyNormalize text).length < 3
        · simp [validate_and_sanitize_input, h1, h2, h3]
        · by_cases h4 : hasRun21 (pyNormalize text) = true
          · simp [validate_and_sanitize_input, h1, h2, h3, h4]
          · by_cases h5 : (pyNormalize text).length < 20 ∧ lowContentTok (pyNormalize text) = true
            · simp [validate_and_sanitize_input, h1, h2, h3, h4, h5]
            · simp [validate_and_sanitize_input, h1, h2, h3, h4, h5]
  · have hclean := pyNormalize_replicate_b 4096 (by omega)
    have hsplit := pySplitWs_replicate_b 4096 (by omega)
    have hlen : (pyNormalize (String.mk (List.replicate 4096 'b'))).length = 4096 := by
      rw [hclean]
      show (List.replicate 4096 'b').length = 4096
      rw [List.length_replicate]
    unfold validate_and_sanitize_input
    rw [if_neg (by rw [hsplit]; exact fun hx => List.noConfusion hx)]
    simp only [hlen]
    rw [if_pos (by omega)]

/-- Witness for C9's characterization at the concrete input "ab". -/
theorem validate_and_sanitize_spec_witness :
    (validate_and_sanitize_input "ab" 4000).1 = false ↔
      (pySplitWs "ab" = []
       ∨ 4000 < (pyNormalize "ab").length
       ∨ (pyNormalize "ab").length < 3
       ∨ hasRun21 (pyNormalize "ab") = true
       ∨ ((pyNormalize "ab").length < 20 ∧ lowContentTok (pyNormalize "ab") = true)) :=
  validate_and_sanitize_spec.1 "ab"

/-! ## Claim C1 -/

set_option maxRecDepth 65536 in
/-- **C1 counterexample**: when every model call returns `None` without
raising — exactly what `send_prompt`'s chat path does on any API error —
the worker's loop keeps calling the model without incrementing
`retry_count`: within an observation window of 4 iterations the model is
called 4 times (more than the claimed maximum of 3), no backoff sleep is
performed, and the loop is still running. -/
theorem worker_unbounded_attempts_on_none_result :
    (worker_retry id attAllNone jobPlain 4 initConvState).2.1.count WEvent.callModel = 4
    ∧ (worker_retry id attAllNone jobPlain 4 initConvState).1 = LoopExit.fuelOut
    ∧ (worker_retry id attAllNone jobPlain 4 initConvState).2.1.filter isSleepEv = []
    ∧ ¬ (4 : Nat) ≤ 3 :=
  ⟨by decide, by decide, by decide, by decide⟩

/-- Counting model calls: singleton event lists. -/
lemma count_call_fetch : ([WEvent.fetchHistory]).count WEvent.callModel = 0 := rfl

/-- Counting model calls: the call event itself. -/
lemma count_call_call : ([WEvent.callModel]).count WEvent.callModel = 1 := rfl

/-- Counting model calls: the optional append event. -/
lemma count_call_ifappend (b : Bool) :
    (if b = true then ([] : List WEvent) else [WEvent.appendPrompt]).count WEvent.callModel
      = 0 := by
  cases b <;> rfl

/-- Counting model calls: the backoff sleep event. -/
lemma count_call_sleep (n : Nat) : ([WEvent.sleep n]).count WEvent.callModel = 0 := rfl

/-- Counting model calls: the optional retry notice. -/
lemma count_call_ifnotice (b : Bool) (a t : Nat) :
    (if b = true then [WEvent.notice a t] else ([] : List WEvent)).count WEvent.callModel
      = 0 := by
  cases b <;> rfl

/-- When no attempt returns `None`, each loop iteration either exits or
increments `retry_count`, so at most `3 - rc` further model calls
happen. -/
lemma workerGo_call_bound (σ : List String → List String) (att : Nat → AttemptOutcome)
    (job : Job) (hA : ∀ i, ¬ att i = AttemptOutcome.retNone) :
    ∀ (fuel rc : Nat) (rm : Option String) (st : ConvState),
      (workerGo σ att job fuel rc rm st).2.1.count WEvent.callModel ≤ 3 - rc := by
  intro fuel
  induction fuel with
  | zero =>
    intro rc rm st
    simp [workerGo]
  | succ fuel ih =>
    intro rc rm st
    simp only [workerGo, max_retries]
    by_cases hrc : rc < 3
    · rw [if_pos hrc]
      try dsimp only
      cases hatt : att rc with
      | retNone => exact absurd hatt (hA rc)
      | ret s =>
        try dsimp only
        simp only [List.count_append, count_call_fetch, count_call_call, count_call_ifappend]
        omega
      | raises e =>
        try dsimp only
        by_cases hrc2 : rc + 1 < 3
        · rw [if_pos hrc2]
          try dsimp only
          simp only [List.count_append, count_call_fetch, count_call_call, count_call_ifappend,
                     count_call_sleep, count_call_ifnotice]
          have hrec := ih (rc + 1)
            (if job.isImage = true then
                (rm, (get_conversation_history st job.user_id).2)
              else add_to_conversation_history σ (get_conversation_history st job.user_id).2
                     job.user_id "user" job.prompt).1
            (if job.isImage = true then
                (rm, (get_conversation_history st job.user_id).2)
              else add_to_conversation_history σ (get_conversation_history st job.user_id).2
                     job.user_id "user" job.prompt).2
          omega
        · rw [if_neg hrc2]
          try dsimp only
          simp only [List.count_append, count_call_fetch, count_call_call, count_call_ifappend]
          omega
    · rw [if_neg hrc]
      simp

/-- **C1 (amended)**: with respect to exception-raising attempts the
claimed policy holds — an oracle raising twice then succeeding gives a
successful outcome with exactly the backoff sleeps 2s then 4s and exactly
the notices "attempt 2/3" and "attempt 3/3", in that order, over 3 model
calls; three straight raising attempts propagate the third error after
the same two sleeps and notices; and when no attempt returns `None`, at
most 3 model calls are ever made.  However an attempt that returns `None`
without raising does not count against the limit and is retried
immediately without any backoff or notice, so the total number of calls
is unbounded (see the counterexample). -/
theorem worker_retry_policy (σ : List String → List String) (job : Job) (st : ConvState)
    (n : Nat) (att attF : Nat → AttemptOutcome) (e1 e2 r f1 f2 f3 : String)
    (h0 : att 0 = AttemptOutcome.raises e1) (h1 : att 1 = AttemptOutcome.raises e2)
    (h2 : att 2 = AttemptOutcome.ret r)
    (g0 : attF 0 = AttemptOutcome.raises f1) (g1 : attF 1 = AttemptOutcome.raises f2)
    (g2 : attF 2 = AttemptOutcome.raises f3)
    (hm : job.hasMessage = true) :
    ((worker_retry σ att job (n + 1 + 1 + 1) st).1 = LoopExit.succeeded r
     ∧ (worker_retry σ att job (n + 1 + 1 + 1) st).2.1.filter isSleepEv
         = [WEvent.sleep 2, WEvent.sleep 4]
     ∧ (worker_retry σ att job (n + 1 + 1 + 1) st).2.1.filter isNoticeEv
         = [WEvent.notice 2 3, WEvent.notice 3 3]
     ∧ (worker_retry σ att job (n + 1 + 1 + 1) st).2.1.count WEvent.callModel = 3)
    ∧ ((worker_retry σ attF job (n + 1 + 1 + 1) st).1 = LoopExit.raised f3
       ∧ (worker_retry σ attF job (n + 1 + 1 + 1) st).2.1.filter isSleepEv
           = [WEvent.sleep 2, WEvent.sleep 4]
       ∧ (worker_retry σ attF job (n + 1 + 1 + 1) st).2.1.filter isNoticeEv
           = [WEvent.notice 2 3, WEvent.notice 3 3]
       ∧ (worker_retry σ attF job (n + 1 + 1 + 1) st).2.1.count WEvent.callModel = 3)
    ∧ (∀ (att2 : Nat → AttemptOutcome), (∀ i, ¬ att2 i = AttemptOutcome.retNone) →
        ∀ (fuel : Nat) (st2 : ConvState),
          (worker_retry σ att2 job fuel st2).2.1.count WEvent.callModel ≤ 3) := by
  refine ⟨?_, ?_, ?_⟩
  · unfold worker_retry
    cases hI : job.isImage <;>
      simp [workerGo, max_retries, h0, h1, h2, hm, hI, isSleepEv, isNoticeEv,
            List.filter_append, List.count_append]
  · unfold worker_retry
    cases hI : job.isImage <;>
      simp [workerGo, max_retries, g0, g1, g2, hm, hI, isSleepEv, isNoticeEv,
            List.filter_append, List.count_append]
  · intro att2 hA fuel st2
    have hb := workerGo_call_bound σ att2 job hA fuel 0 none st2
    unfold worker_retry
    omega

/-- Witness for C1's amended theorem with concrete oracles. -/
theorem worker_retry_policy_witness :
    attFailFailOk 0 = AttemptOutcome.raises "boom1"
    ∧ attFailFailOk 1 = AttemptOutcome.raises "boom2"
    ∧ attFailFailOk 2 = AttemptOutcome.ret "answer"
    ∧ attAllFail 0 = AttemptOutcome.raises "down"
    ∧ attAllFail 1 = AttemptOutcome.raises "down"
    ∧ attAllFail 2 = AttemptOutcome.raises "down"
    ∧ jobPlain.hasMessage = true
    ∧ (((worker_retry id attFailFailOk jobPlain (0 + 1 + 1 + 1) initConvState).1
          = LoopExit.succeeded "answer"
        ∧ (worker_retry id attFailFailOk jobPlain (0 + 1 + 1 + 1) initConvState).2.1.filter isSleepEv
            = [WEvent.sleep 2, WEvent.sleep 4]
        ∧ (worker_retry id attFailFailOk jobPlain (0 + 1 + 1 + 1) initConvState).2.1.filter isNoticeEv
            = [WEvent.notice 2 3, WEvent.notice 3 3]
        ∧ (worker_retry id attFailFailOk jobPlain (0 + 1 + 1 + 1) initConvState).2.1.count
            WEvent.callModel = 3)
       ∧ ((worker_retry id attAllFail jobPlain (0 + 1 + 1 + 1) initConvState).1
            = LoopExit.raised "down"
          ∧ (worker_retry id attAllFail jobPlain (0 + 1 + 1 + 1) initConvState).2.1.filter isSleepEv
              = [WEvent.sleep 2, WEvent.sleep 4]
          ∧ (worker_retry id attAllFail jobPlain (0 + 1 + 1 + 1) initConvState).2.1.filter isNoticeEv
              = [WEvent.notice 2 3, WEvent.notice 3 3]
          ∧ (worker_retry id attAllFail jobPlain (0 + 1 + 1 + 1) initConvState).2.1.count
              WEvent.callModel = 3)
       ∧ (∀ (att2 : Nat → AttemptOutcome), (∀ i, ¬ att2 i = AttemptOutcome.retNone) →
           ∀ (fuel : Nat) (st2 : ConvState),
             (worker_retry id att2 jobPlain fuel st2).2.1.count WEvent.callModel ≤ 3)) :=
  ⟨rfl, rfl, rfl, rfl, rfl, rfl, rfl,
   worker_retry_policy id jobPlain initConvState 0 attFailFailOk attAllFail
     "boom1" "boom2" "answer" "down" "down" "down" rfl rfl rfl rfl rfl rfl rfl⟩

/-! ## Claim C10 -/

/-- **C10**: for a non-image job, the worker appends the user prompt to
the conversation history once per model-call attempt (the append and the
history fetch sit inside the retry loop), not once per job: starting from
a fresh user, if the first k attempts raise (k = 1 or 2) and the next one
succeeds, the trace holds k+1 history fetches, k+1 appends and k+1 model
calls, and the user's stored history holds the same prompt k+1 times. -/
theorem prompt_appended_per_attempt (σ : List String → List String) (job : Job)
    (st : ConvState) (k : Nat) (att : Nat → AttemptOutcome) (es : Nat → String) (r : String)
    (himg : job.isImage = false)
    (hfresh1 : st.histories job.user_id = none)
    (hfresh2 : st.user_topics job.user_id = none)
    (hex : detect_explicit_topic_change job.prompt = false)
    (hk : k = 1 ∨ k = 2)
    (hfail : ∀ i, i < k → att i = AttemptOutcome.raises (es i))
    (hsucc : att k = AttemptOutcome.ret r) :
    (worker_retry σ att job 3 st).1 = LoopExit.succeeded r
    ∧ (worker_retry σ att job 3 st).2.1.count WEvent.fetchHistory = k + 1
    ∧ (worker_retry σ att job 3 st).2.1.count WEvent.appendPrompt = k + 1
    ∧ (worker_retry σ att job 3 st).2.1.count WEvent.callModel = k + 1
    ∧ (∃ ctx, (worker_retry σ att job 3 st).2.2.2.histories job.user_id = some ctx
        ∧ ctx.messages.length = k + 1
        ∧ ∀ m ∈ ctx.messages, m.role = "user" ∧ m.content = job.prompt) := by
  rcases hk with hk | hk <;> subst hk
  · have ha0 := hfail 0 (by omega)
    cases hM : job.hasMessage <;>
      simp [worker_retry, workerGo, max_retries, ha0, hsucc, himg, hM,
            get_conversation_history, add_to_conversation_history, ensureUser,
            hfresh1, hfresh2, hex, detect_topic_change_self,
            ConversationContext.add_message, ConversationContext.clear_context,
            freshContext, MAX_HISTORY_LENGTH, List.count_append]
  · have ha0 := hfail 0 (by omega)
    have ha1 := hfail 1 (by omega)
    cases hM : job.hasMessage <;>
      simp [worker_retry, workerGo, max_retries, ha0, ha1, hsucc, himg, hM,
            get_conversation_history, add_to_conversation_history, ensureUser,
            hfresh1, hfresh2, hex, detect_topic_change_self,
            ConversationContext.add_message, ConversationContext.clear_context,
            freshContext, MAX_HISTORY_LENGTH, List.count_append]

/-- Witness for C10 with a concrete fail-once-then-succeed oracle. -/
theorem prompt_appended_per_attempt_witness :
    jobPlain.isImage = false
    ∧ initConvState.histories jobPlain.user_id = none
    ∧ initConvState.user_topics jobPlain.user_id = none
    ∧ detect_explicit_topic_change jobPlain.prompt = false
    ∧ ((1 : Nat) = 1 ∨ (1 : Nat) = 2)
    ∧ (∀ i, i < 1 → attFailOk i = AttemptOutcome.raises "blip")
    ∧ attFailOk 1 = AttemptOutcome.ret "answer"
    ∧ ((worker_retry id attFailOk jobPlain 3 initConvState).1 = LoopExit.succeeded "answer"
       ∧ (worker_retry id attFailOk jobPlain 3 initConvState).2.1.count WEvent.fetchHistory = 1 + 1
       ∧ (worker_retry id attFailOk jobPlain 3 initConvState).2.1.count WEvent.appendPrompt = 1 + 1
       ∧ (worker_retry id attFailOk jobPlain 3 initConvState).2.1.count WEvent.callModel = 1 + 1
       ∧ (∃ ctx, (worker_retry id attFailOk jobPlain 3 initConvState).2.2.2.histories
              jobPlain.user_id = some ctx
           ∧ ctx.messages.length = 1 + 1
           ∧ ∀ m ∈ ctx.messages, m.role = "user" ∧ m.content = jobPlain.prompt)) := by
  have hfail : ∀ i, i < 1 → attFailOk i = AttemptOutcome.raises "blip" := by
    intro i hi
    have h0 : i = 0 := by omega
    subst h0
    rfl
  exact ⟨rfl, rfl, rfl, by decide, Or.inl rfl, hfail, rfl,
    prompt_appended_per_attempt id jobPlain initConvState 1 attFailOk (fun _ => "blip")
      "answer" rfl rfl rfl (by decide) (Or.inl rfl) hfail rfl⟩
